import Mathlib

/-!
Verification of the audio capture & transcription orchestration pipeline of the
Natively repository (`src/electron/main.ts`, `src/electron/audio/MicrophoneCapture.ts`).

The TypeScript code is shallowly embedded: each handle's mutable fields become a
state record, the native capabilities become explicit environments describing
whether their calls throw and what sample rate they report, and every observable
side effect (event emission, logging, native calls, subscriptions, RAG
processing) is recorded in an explicit event trace.  Fallible JS calls are
`Except Unit`-valued; a `try/catch` in the source is an explicit `match` on such
a value.
-/

namespace Natively

/-- Speaker attribution of a transcript segment (`'interviewer'` / `'user'`). -/
inductive Speaker
  | interviewer
  | user
deriving DecidableEq, Repr

/-- The payload of a `transcript` event from a GoogleSTT stream:
`{ text, isFinal, confidence }` (main.ts lines 238, 274). -/
structure RawSegment where
  text : String
  isFinal : Bool
  confidence : ℚ
deriving DecidableEq, Repr

/-- The speaker-attributed, timestamped segment the router constructs
(`{ speaker, text, timestamp, final, confidence }` in main.ts). -/
structure TranscriptSegment where
  speaker : Speaker
  text : String
  timestampMs : ℕ
  isFinal : Bool
  confidence : ℚ
deriving DecidableEq, Repr

/-- The sinks a routed segment can be delivered to: the intelligence manager
(`intelligenceManager.handleTranscript`), the launcher window and the overlay
window (`webContents.send('native-audio-transcript', ...)`). -/
inductive Sink
  | intelligence
  | launcher
  | overlay
deriving DecidableEq, Repr

/-- One delivery of a routed segment to one sink. -/
structure Delivery where
  sink : Sink
  seg : TranscriptSegment
deriving DecidableEq, Repr

/-- The two pipeline roles: system-output audio and microphone. -/
inductive Role
  | system
  | mic
deriving DecidableEq, Repr

/-- A stored transcript entry of a finished meeting as read back from the
database in `processCompletedMeetingForRAG` (`{ speaker, text, timestamp }`). -/
structure TEntry where
  speaker : String
  text : String
  timestamp : ℕ
deriving DecidableEq, Repr

/-- Observable side effects of the orchestration code, in program order. -/
inductive Ev
  | logWarn (r : Role)
  | logErr (r : Role)
  | micError
  | micStarted
  | micStopped
  | micNativeStart
  | micNativeStop
  | micData (chunk : List ℕ)
  | sysError
  | sysStarted
  | sysNativeStop
  | ctorOk (r : Role) (dev : Option String) (rate : ℕ)
  | ctorFail (r : Role) (dev : Option String)
  | setRate (r : Role) (rate : ℕ)
  | subData (r : Role) (sttPresent : Bool) (cfg : Option ℕ) (srcRate : ℕ)
  | subErr (r : Role)
  | sttStarted (r : Role)
  | sttStopped (r : Role)
  | setMeta
  | stopMeetingCall
  | ragProcess (id : ℕ) (segs : List TEntry) (summary : Option String)
  | ragOk (n : ℕ)
  | ragLogErr
deriving DecidableEq, Repr

/-- JS `x || undefined` / `x || null` on an optional string: the empty string is
falsy and collapses to "no device id". -/
def normDev (d : Option String) : Option String :=
  match d with
  | none => none
  | some s => if s = "" then none else some s

/-- Behaviour of the native Rust microphone handle held in
`MicrophoneCapture.monitor`: the rate its `getSampleRate()` reports and whether
its `start` / `stop` calls throw. -/
structure NativeMic where
  sampleRate : ℕ
  startThrows : Bool
  stopThrows : Bool
deriving DecidableEq, Repr

/-- Mutable state of a `MicrophoneCapture` instance
(src/electron/audio/MicrophoneCapture.ts): `monitor` (null after `stop()` or
when the native module is unavailable) and `isRecording`. -/
structure MicState where
  monitor : Option NativeMic
  isRecording : Bool
deriving DecidableEq, Repr

/-- Environment for constructing a `MicrophoneCapture`: whether the Rust native
class loaded, and what `new RustMicCapture(deviceId)` does (it may throw). -/
structure MicEnv where
  rustAvailable : Bool
  nativeCtor : Option String → Except Unit NativeMic

/-- `new MicrophoneCapture(deviceId)`: stores `deviceId || null`; when the Rust
class is available it constructs the native monitor (whose constructor may
throw, uncaught here); otherwise it logs and leaves `monitor` null. -/
def micNew (env : MicEnv) (dev : Option String) : Except Unit MicState :=
  if env.rustAvailable then
    (env.nativeCtor (normDev dev)).map (fun m => MicState.mk (some m) false)
  else
    Except.ok (MicState.mk none false)

/-- `MicrophoneCapture.getSampleRate()`: `this.monitor?.getSampleRate() || 16000`
(null monitor, or a reported rate of 0, falls back to 16000). -/
def micGetSampleRate (s : MicState) : ℕ :=
  match s.monitor with
  | none => 16000
  | some m => if m.sampleRate = 0 then 16000 else m.sampleRate

/-- `MicrophoneCapture.start()` (lines 39-63): no-op while recording; logs and
returns when the monitor is missing; otherwise calls the native `start` — on
throw it logs and emits `'error'`, on success it sets `isRecording` and emits
`'start'`.  It never throws to its caller (the `try/catch` is the whole body). -/
def micStart (s : MicState) : MicState × List Ev :=
  if s.isRecording then (s, [])
  else
    match s.monitor with
    | none => (s, [Ev.logErr Role.mic])
    | some m =>
      if m.startThrows then (s, [Ev.micNativeStart, Ev.logErr Role.mic, Ev.micError])
      else (MicState.mk (some m) true, [Ev.micNativeStart, Ev.micStarted])

/-- The chunk callback `MicrophoneCapture.start` registers (lines 50-55):
`if (chunk && chunk.length > 0) this.emit('data', chunk)`.  `none` models a
null/undefined chunk. -/
def micOnChunk (chunk : Option (List ℕ)) : List Ev :=
  match chunk with
  | none => []
  | some c => if 0 < c.length then [Ev.micData c] else []

/-- `MicrophoneCapture.stop()` (lines 68-81): no-op while not recording;
otherwise calls `monitor?.stop()` (catching and logging a throw), nulls the
monitor, clears `isRecording` and emits `'stop'`. -/
def micStop (s : MicState) : MicState × List Ev :=
  if s.isRecording then
    let evs :=
      match s.monitor with
      | none => []
      | some m => if m.stopThrows then [Ev.micNativeStop, Ev.logErr Role.mic] else [Ev.micNativeStop]
    (MicState.mk none false, evs ++ [Ev.micStopped])
  else (s, [])

theorem micStop_not_recording (s : MicState) : (micStop s).1.isRecording = false := by
  unfold micStop
  by_cases h : s.isRecording <;> simp [h]

/-- C10: every `'data'` event emitted by the microphone capture handle carries a
chunk that is non-null and of length strictly greater than zero; null or empty
chunks from the native callback are filtered out. -/
theorem C10_mic_data_chunks_nonempty (chunk : Option (List ℕ)) (e : Ev)
    (he : e ∈ micOnChunk chunk) : ∃ c, e = Ev.micData c ∧ 0 < c.length := by
  cases chunk with
  | none => simp [micOnChunk] at he
  | some c =>
    by_cases h : 0 < c.length
    · simp [micOnChunk, h] at he
      exact ⟨c, he, h⟩
    · simp [micOnChunk, h] at he

theorem C10_witness :
    ∃ c, Ev.micData [7] = Ev.micData c ∧ 0 < c.length :=
  C10_mic_data_chunks_nonempty (some [7]) (Ev.micData [7]) (by simp [micOnChunk])

/-- C5 counterexample: start a fresh microphone handle, stop it, then call
`start()` again.  The handle does NOT transition back to the capturing state
(stop() discarded the native monitor, so start() only logs an error); the claim
that a stopped handle can be restarted without reconstruction is false. -/
theorem C5_counterexample :
    (micStart (micStop (micStart (MicState.mk (some (NativeMic.mk 16000 false false)) false)).1).1).1.isRecording
      = false ∧
    Ev.micStarted ∉
      (micStart (micStop (micStart (MicState.mk (some (NativeMic.mk 16000 false false)) false)).1).1).2 := by
  constructor
  · rfl
  · decide

/-- C5 amended: after `stop()` of an actively-recording microphone handle, the
native monitor is discarded (`monitor = null`), so a subsequent `start()` only
logs an error and leaves the handle inactive; resuming capture requires
constructing a new `MicrophoneCapture` (as `reconfigureAudio` does). -/
theorem C5_amended (s : MicState) (h : s.isRecording = true) :
    (micStop s).1 = MicState.mk none false ∧
    micStart (micStop s).1 = (MicState.mk none false, [Ev.logErr Role.mic]) := by
  have hstop : (micStop s).1 = MicState.mk none false := by
    unfold micStop
    simp [h]
  refine ⟨hstop, ?_⟩
  rw [hstop]
  rfl

theorem C5_witness :
    (micStop (MicState.mk (some (NativeMic.mk 48000 false false)) true)).1 = MicState.mk none false ∧
    micStart (micStop (MicState.mk (some (NativeMic.mk 48000 false false)) true)).1
      = (MicState.mk none false, [Ev.logErr Role.mic]) :=
  C5_amended (MicState.mk (some (NativeMic.mk 48000 false false)) true) rfl

/-- C6 counterexample: when the native monitor is absent (the native module
failed to load), `start()` fails to begin capturing but emits NO `'error'`
event — it only logs; the claim that every failure path of `start()` emits
`'error'` is false. -/
theorem C6_counterexample :
    (micStart (MicState.mk none false)).1.isRecording = false ∧
    Ev.micError ∉ (micStart (MicState.mk none false)).2 := by
  constructor
  · rfl
  · decide

/-- C6 amended: `start()` never throws and leaves the recording state unchanged
on failure, but only the path where the underlying native `start` call throws
emits an `'error'` event; when the native monitor is absent, `start()` merely
logs an error and returns without emitting `'error'`. -/
theorem C6_amended (s : MicState) (h : s.isRecording = false) :
    (s.monitor = none → micStart s = (s, [Ev.logErr Role.mic])) ∧
    (∀ m, s.monitor = some m → m.startThrows = true →
      micStart s = (s, [Ev.micNativeStart, Ev.logErr Role.mic, Ev.micError])) := by
  constructor
  · intro hm
    unfold micStart
    simp [h, hm]
  · intro m hm ht
    unfold micStart
    simp [h, hm, ht]

theorem C6_witness :
    ((MicState.mk none false).monitor = none →
      micStart (MicState.mk none false) = (MicState.mk none false, [Ev.logErr Role.mic])) ∧
    (∀ m, (MicState.mk none false).monitor = some m → m.startThrows = true →
      micStart (MicState.mk none false)
        = (MicState.mk none false, [Ev.micNativeStart, Ev.logErr Role.mic, Ev.micError])) :=
  C6_amended (MicState.mk none false) rfl

/-- Modelled from the spec: `SystemAudioCapture` (src/electron/audio/SystemAudioCapture.ts
is not under src/; spec §4.1, §6).  A capture handle over a native capability:
it reports a sample rate and holds a capturing flag; the underlying native
start/stop calls may throw, described by the two flags. -/
structure SysCap where
  rate : ℕ
  startThrows : Bool
  stopThrows : Bool
  capturing : Bool
deriving DecidableEq, Repr

/-- Modelled from the spec: `getSampleRate()` returns the active rate without
throwing (§4.1). -/
def sysGetSampleRate (c : SysCap) : ℕ :=
  c.rate

/-- Modelled from the spec: `start()` is idempotent; on underlying failure it
emits an error event and leaves state unchanged; it never throws (§4.1). -/
def sysStart (c : SysCap) : SysCap × List Ev :=
  if c.capturing then (c, [])
  else if c.startThrows then (c, [Ev.sysError])
  else (SysCap.mk c.rate c.startThrows c.stopThrows true, [Ev.sysStarted])

/-- Modelled from the spec: `stop()` is idempotent; it always deactivates and
releases the native resource, catching and logging a throwing release (§4.1). -/
def sysStop (c : SysCap) : SysCap × List Ev :=
  if c.capturing then
    (SysCap.mk c.rate c.startThrows c.stopThrows false,
      if c.stopThrows then [Ev.sysNativeStop, Ev.logErr Role.system] else [Ev.sysNativeStop])
  else (c, [])

/-- Modelled from the spec: a `GoogleSTT` streaming-transcription handle
(src/electron/audio/GoogleSTT.ts is not under src/; spec §4.1, §6): it holds a
configured sample rate (none until first configured) and a listening flag;
`setSampleRate`, `start` and `stop` never throw. -/
structure STT where
  rate : Option ℕ
  listening : Bool
deriving DecidableEq, Repr

/-- Modelled from the spec: `setSampleRate(n)` records the configured rate. -/
def sttSetRate (t : STT) (r : ℕ) : STT :=
  STT.mk (some r) t.listening

/-- Modelled from the spec: `start()` on a transcription stream, idempotent and
non-throwing (§4.1). -/
def sttDoStart (ro : Role) (t : STT) : STT × List Ev :=
  if t.listening then (t, []) else (STT.mk t.rate true, [Ev.sttStarted ro])

/-- Modelled from the spec: `stop()` on a transcription stream, idempotent and
non-throwing (§4.1). -/
def sttDoStop (ro : Role) (t : STT) : STT × List Ev :=
  if t.listening then (STT.mk t.rate false, [Ev.sttStopped ro]) else (t, [])

/-- The audio fields of `AppState` (main.ts lines 213-216): the two capture
handles and the two GoogleSTT streams, each nullable. -/
structure AudioState where
  systemAudioCapture : Option SysCap
  microphoneCapture : Option MicState
  googleSTT : Option STT
  googleSTT_User : Option STT
deriving DecidableEq, Repr

/-- Behaviour of `new SystemAudioCapture(deviceId?)`: the constructor either
throws or yields a handle. -/
structure SysEnv where
  ctor : Option String → Except Unit SysCap

/-- The body of the `try` block of the system-audio branch of
`reconfigureAudio` (main.ts lines 319-333 and 336-347): construct the capture
source (may throw), read its rate, propagate it to `googleSTT?.setSampleRate`,
then attach the `data` and `error` subscriptions.  The `subData` event records
the STT handle's configured rate at the moment the subscription is attached. -/
def sysAttempt (e : SysEnv) (stt0 : Option STT) (dev : Option String) :
    Except Unit (SysCap × Option STT × List Ev) := do
  let cap ← e.ctor (normDev dev)
  let rate := sysGetSampleRate cap
  let stt1 := stt0.map (fun t => sttSetRate t rate)
  pure (cap, stt1,
    [Ev.ctorOk Role.system (normDev dev) rate]
    ++ (if stt0.isSome then [Ev.setRate Role.system rate] else [])
    ++ [Ev.subData Role.system stt1.isSome (stt1.bind STT.rate) rate, Ev.subErr Role.system])

/-- The system-audio branch of `reconfigureAudio` (main.ts lines 313-351): stop
and null the old source, try the preferred device, and on a throw log a warning
and fall back to the default device; if that throws too, log an error and leave
the source null. -/
def sysReconfigure (e : SysEnv) (outId : Option String) (cap0 : Option SysCap)
    (stt0 : Option STT) : Option SysCap × Option STT × List Ev :=
  let stopEvs : List Ev :=
    match cap0 with
    | some c => (sysStop c).2
    | none => []
  match sysAttempt e stt0 outId with
  | Except.ok (cap, stt1, evs) => (some cap, stt1, stopEvs ++ evs)
  | Except.error _ =>
    match sysAttempt e stt0 none with
    | Except.ok (cap, stt1, evs) =>
      (some cap, stt1,
        stopEvs ++ [Ev.ctorFail Role.system (normDev outId), Ev.logWarn Role.system] ++ evs)
    | Except.error _ =>
      (none, stt0,
        stopEvs ++ [Ev.ctorFail Role.system (normDev outId), Ev.logWarn Role.system,
          Ev.ctorFail Role.system none, Ev.logErr Role.system])

/-- The body of the `try` block of the microphone branch of `reconfigureAudio`
(main.ts lines 359-373 and 376-387): construct the `MicrophoneCapture` (whose
native constructor may throw), read its rate, propagate it to
`googleSTT_User?.setSampleRate`, then attach the subscriptions. -/
def micAttempt (e : MicEnv) (stt0 : Option STT) (dev : Option String) :
    Except Unit (MicState × Option STT × List Ev) := do
  let ms ← micNew e dev
  let rate := micGetSampleRate ms
  let stt1 := stt0.map (fun t => sttSetRate t rate)
  pure (ms, stt1,
    [Ev.ctorOk Role.mic (normDev dev) rate]
    ++ (if stt0.isSome then [Ev.setRate Role.mic rate] else [])
    ++ [Ev.subData Role.mic stt1.isSome (stt1.bind STT.rate) rate, Ev.subErr Role.mic])

/-- The microphone branch of `reconfigureAudio` (main.ts lines 353-391), with
the same stop-old / preferred / fallback-to-default structure as the
system-audio branch. -/
def micReconfigure (e : MicEnv) (inId : Option String) (cap0 : Option MicState)
    (stt0 : Option STT) : Option MicState × Option STT × List Ev :=
  let stopEvs : List Ev :=
    match cap0 with
    | some c => (micStop c).2
    | none => []
  match micAttempt e stt0 inId with
  | Except.ok (ms, stt1, evs) => (some ms, stt1, stopEvs ++ evs)
  | Except.error _ =>
    match micAttempt e stt0 none with
    | Except.ok (ms, stt1, evs) =>
      (some ms, stt1,
        stopEvs ++ [Ev.ctorFail Role.mic (normDev inId), Ev.logWarn Role.mic] ++ evs)
    | Except.error _ =>
      (none, stt0,
        stopEvs ++ [Ev.ctorFail Role.mic (normDev inId), Ev.logWarn Role.mic,
          Ev.ctorFail Role.mic none, Ev.logErr Role.mic])

/-- `AppState.reconfigureAudio(inputDeviceId?, outputDeviceId?)` (main.ts lines
307-392): run the system-audio branch, then the microphone branch.  The result
type admits a thrown exception, but each branch catches every throwing call. -/
def reconfigureAudio (eS : SysEnv) (eM : MicEnv) (inputDeviceId outputDeviceId : Option String)
    (st : AudioState) : Except Unit (AudioState × List Ev) :=
  let s := sysReconfigure eS outputDeviceId st.systemAudioCapture st.googleSTT
  let m := micReconfigure eM inputDeviceId st.microphoneCapture st.googleSTT_User
  Except.ok (AudioState.mk s.1 m.1 s.2.1 m.2.1, s.2.2 ++ m.2.2)

/-- Meeting metadata passed to `startMeeting`; `audio` carries
`(inputDeviceId, outputDeviceId)` preferences when present. -/
structure MeetingMeta where
  audio : Option (Option String × Option String)

/-- JS optional chaining `capture?.start()` on the nullable system capture. -/
def optSysStart (c : Option SysCap) : Option SysCap × List Ev :=
  match c with
  | some c => let p := sysStart c; (some p.1, p.2)
  | none => (none, [])

/-- JS optional chaining `capture?.stop()` on the nullable system capture. -/
def optSysStop (c : Option SysCap) : Option SysCap × List Ev :=
  match c with
  | some c => let p := sysStop c; (some p.1, p.2)
  | none => (none, [])

/-- JS optional chaining `microphoneCapture?.start()`. -/
def optMicStart (m : Option MicState) : Option MicState × List Ev :=
  match m with
  | some m => let p := micStart m; (some p.1, p.2)
  | none => (none, [])

/-- JS optional chaining `microphoneCapture?.stop()`. -/
def optMicStop (m : Option MicState) : Option MicState × List Ev :=
  match m with
  | some m => let p := micStop m; (some p.1, p.2)
  | none => (none, [])

/-- JS optional chaining `googleSTT?.start()`. -/
def optSttStart (r : Role) (t : Option STT) : Option STT × List Ev :=
  match t with
  | some t => let p := sttDoStart r t; (some p.1, p.2)
  | none => (none, [])

/-- JS optional chaining `googleSTT?.stop()`. -/
def optSttStop (r : Role) (t : Option STT) : Option STT × List Ev :=
  match t with
  | some t => let p := sttDoStop r t; (some p.1, p.2)
  | none => (none, [])

/-- The start sequence of `startMeeting` (main.ts lines 406-412):
`systemAudioCapture?.start(); googleSTT?.start(); microphoneCapture?.start();
googleSTT_User?.start()`, each skipped when the field is null. -/
def startPairs (st : AudioState) : AudioState × List Ev :=
  let sc := optSysStart st.systemAudioCapture
  let ts := optSttStart Role.system st.googleSTT
  let mc := optMicStart st.microphoneCapture
  let tu := optSttStart Role.mic st.googleSTT_User
  (AudioState.mk sc.1 mc.1 ts.1 tu.1, sc.2 ++ ts.2 ++ mc.2 ++ tu.2)

/-- The stop sequence of `endMeeting` (main.ts lines 418-424):
`systemAudioCapture?.stop(); googleSTT?.stop(); microphoneCapture?.stop();
googleSTT_User?.stop()`. -/
def stopPairs (st : AudioState) : AudioState × List Ev :=
  let sc := optSysStop st.systemAudioCapture
  let ts := optSttStop Role.system st.googleSTT
  let mc := optMicStop st.microphoneCapture
  let tu := optSttStop Role.mic st.googleSTT_User
  (AudioState.mk sc.1 mc.1 ts.1 tu.1, sc.2 ++ ts.2 ++ mc.2 ++ tu.2)

/-- `AppState.startMeeting(metadata?)` (main.ts lines 394-413): if metadata is
present, record it (`setMeetingMetadata`) and, when it has audio preferences,
await `reconfigureAudio` (uncaught here, so a rejection would propagate); then
start both pipeline pairs. -/
def startMeeting (eS : SysEnv) (eM : MicEnv) (md : Option MeetingMeta) (st : AudioState) :
    Except Unit (AudioState × List Ev) :=
  match md with
  | none =>
    let p := startPairs st
    Except.ok (p.1, p.2)
  | some m =>
    match m.audio with
    | some (inId, outId) => do
      let r ← reconfigureAudio eS eM inId outId st
      let p := startPairs r.1
      pure (p.1, [Ev.setMeta] ++ r.2 ++ p.2)
    | none =>
      let p := startPairs st
      Except.ok (p.1, [Ev.setMeta] ++ p.2)

/-- A detailed summary stored with a finished meeting
(`{ keyPoints, actionItems }`). -/
structure DSummary where
  keyPoints : List String
  actionItems : List String
deriving DecidableEq, Repr

/-- A meeting row as returned by the database
(`getRecentMeetings` / `getMeetingDetails`). -/
structure MeetingRec where
  id : ℕ
  transcript : Option (List TEntry)
  detailedSummary : Option DSummary
deriving DecidableEq, Repr

/-- The storage collaborator as seen by `processCompletedMeetingForRAG`:
`recent` is the result of `getRecentMeetings(1)` and `details` of
`getMeetingDetails(id)`. -/
structure Db where
  recent : List MeetingRec
  details : ℕ → Option MeetingRec

/-- The most recent meeting's stored transcript, when a recent meeting exists,
its details resolve, and it has a transcript. -/
def recentTranscript (db : Db) : Option (List TEntry) :=
  (db.recent.head?.bind (fun m0 => db.details m0.id)).bind (fun m => m.transcript)

/-- `AppState.processCompletedMeetingForRAG` (main.ts lines 433-467): skip
silently when the RAG manager is absent, no recent meeting exists, details are
missing, or the transcript is absent or empty; otherwise call
`ragManager.processMeeting(id, segments, summary?)` once, catching and logging
a throw.  `procRes` is the behaviour of that collaborator call. -/
def processCompletedMeetingForRAG (ragPresent : Bool) (procRes : Except Unit ℕ)
    (db : Db) : List Ev :=
  if ragPresent = false then []
  else
    match db.recent.head? with
    | none => []
    | some m0 =>
      match db.details m0.id with
      | none => []
      | some meeting =>
        match meeting.transcript with
        | none => []
        | some trn =>
          if trn.length = 0 then []
          else
            let segments := trn.map (fun t => TEntry.mk t.speaker t.text t.timestamp)
            let summary := meeting.detailedSummary.map (fun ds =>
              String.intercalate ". "
                (ds.keyPoints ++ ds.actionItems.map (fun a => "Action: " ++ a)))
            match procRes with
            | Except.ok n => [Ev.ragProcess meeting.id segments summary, Ev.ragOk n]
            | Except.error _ => [Ev.ragProcess meeting.id segments summary, Ev.ragLogErr]

/-- `AppState.endMeeting()` (main.ts lines 415-431): stop both pipeline pairs,
then `await intelligenceManager.stopMeeting()` (the session-finalisation
collaborator, recorded as `stopMeetingCall`), then
`await processCompletedMeetingForRAG()`. -/
def endMeeting (ragPresent : Bool) (procRes : Except Unit ℕ) (db : Db) (st : AudioState) :
    Except Unit (AudioState × List Ev) :=
  let p := stopPairs st
  Except.ok (p.1, p.2 ++ [Ev.stopMeetingCall] ++ processCompletedMeetingForRAG ragPresent procRes db)

/-- The `'transcript'` handler wired to the system-audio stream `googleSTT`
(main.ts lines 238-257).  It first calls `intelligenceManager.handleTranscript`
with `speaker: 'interviewer'` and `timestamp: Date.now()`, then builds a second
payload — with a SECOND `Date.now()` call — and sends it to the launcher and
overlay windows when they are open (`?.` skips a closed window).  `t1` and `t2`
are the results of the two successive `Date.now()` reads. -/
def systemTranscriptHandler (seg : RawSegment) (t1 t2 : ℕ)
    (launcherOpen overlayOpen : Bool) : List Delivery :=
  [Delivery.mk Sink.intelligence
    (TranscriptSegment.mk Speaker.interviewer seg.text t1 seg.isFinal seg.confidence)]
  ++ (if launcherOpen then
        [Delivery.mk Sink.launcher
          (TranscriptSegment.mk Speaker.interviewer seg.text t2 seg.isFinal seg.confidence)]
      else [])
  ++ (if overlayOpen then
        [Delivery.mk Sink.overlay
          (TranscriptSegment.mk Speaker.interviewer seg.text t2 seg.isFinal seg.confidence)]
      else [])

/-- The `'transcript'` handler wired to the microphone stream `googleSTT_User`
(main.ts lines 274-294), identical to the system-audio one except that the
speaker is `'user'`. -/
def userTranscriptHandler (seg : RawSegment) (t1 t2 : ℕ)
    (launcherOpen overlayOpen : Bool) : List Delivery :=
  [Delivery.mk Sink.intelligence
    (TranscriptSegment.mk Speaker.user seg.text t1 seg.isFinal seg.confidence)]
  ++ (if launcherOpen then
        [Delivery.mk Sink.launcher
          (TranscriptSegment.mk Speaker.user seg.text t2 seg.isFinal seg.confidence)]
      else [])
  ++ (if overlayOpen then
        [Delivery.mk Sink.overlay
          (TranscriptSegment.mk Speaker.user seg.text t2 seg.isFinal seg.confidence)]
      else [])

/-- C1: every delivery produced for a transcript event of the system-audio
pipeline carries `speaker = interviewer`, and every delivery produced for a
transcript event of the microphone pipeline carries `speaker = user`, for all
segment contents, clock values and window states. -/
theorem C1_attribution (seg : RawSegment) (t1 t2 : ℕ) (lo oo : Bool) :
    (∀ d ∈ systemTranscriptHandler seg t1 t2 lo oo, d.seg.speaker = Speaker.interviewer) ∧
    (∀ d ∈ userTranscriptHandler seg t1 t2 lo oo, d.seg.speaker = Speaker.user) := by
  constructor
  · intro d hd
    unfold systemTranscriptHandler at hd
    rcases List.mem_append.1 hd with h | h
    · rcases List.mem_append.1 h with h | h
      · simp at h
        simp [h]
      · by_cases hl : lo <;> simp [hl] at h
        simp [h]
    · by_cases ho : oo <;> simp [ho] at h
      simp [h]
  · intro d hd
    unfold userTranscriptHandler at hd
    rcases List.mem_append.1 hd with h | h
    · rcases List.mem_append.1 h with h | h
      · simp at h
        simp [h]
      · by_cases hl : lo <;> simp [hl] at h
        simp [h]
    · by_cases ho : oo <;> simp [ho] at h
      simp [h]

theorem C1_witness :
    (Delivery.mk Sink.intelligence
        (TranscriptSegment.mk Speaker.interviewer "hi" 5 true 1)).seg.speaker
      = Speaker.interviewer :=
  (C1_attribution (RawSegment.mk "hi" true 1) 5 6 true true).1
    (Delivery.mk Sink.intelligence
      (TranscriptSegment.mk Speaker.interviewer "hi" 5 true 1))
    (by simp [systemTranscriptHandler])

/-- C7 counterexample: the handler samples `Date.now()` twice — once for the
intelligence delivery and once for the UI payload — so when the clock advances
between the two reads (here 0 then 1) the intelligence consumer and the UI
surfaces receive segments with DIFFERENT `timestampMs`; the claim that one
segment identical in every field is delivered to all sinks is false. -/
theorem C7_counterexample :
    ∃ d1 ∈ systemTranscriptHandler (RawSegment.mk "hi" true 1) 0 1 true true,
    ∃ d2 ∈ systemTranscriptHandler (RawSegment.mk "hi" true 1) 0 1 true true,
      d1.seg.timestampMs ≠ d2.seg.timestampMs := by
  refine ⟨Delivery.mk Sink.intelligence
      (TranscriptSegment.mk Speaker.interviewer "hi" 0 true 1), ?_,
    Delivery.mk Sink.launcher
      (TranscriptSegment.mk Speaker.interviewer "hi" 1 true 1), ?_, ?_⟩
  · simp [systemTranscriptHandler]
  · simp [systemTranscriptHandler]
  · decide

/-- C7 amended: for every transcript event the router makes one delivery to the
intelligence consumer timestamped with the first clock read, and one shared
payload timestamped with the second clock read delivered to each currently-open
UI surface (a closed surface is silently skipped); all deliveries agree on
speaker, text, isFinal and confidence, but the intelligence timestamp is the
first read while the UI timestamp is the second, so they coincide only when the
two reads return the same time. -/
theorem C7_amended (seg : RawSegment) (t1 t2 : ℕ) (lo oo : Bool) :
    systemTranscriptHandler seg t1 t2 lo oo
      = [Delivery.mk Sink.intelligence
          (TranscriptSegment.mk Speaker.interviewer seg.text t1 seg.isFinal seg.confidence)]
        ++ (if lo then
              [Delivery.mk Sink.launcher
                (TranscriptSegment.mk Speaker.interviewer seg.text t2 seg.isFinal seg.confidence)]
            else [])
        ++ (if oo then
              [Delivery.mk Sink.overlay
                (TranscriptSegment.mk Speaker.interviewer seg.text t2 seg.isFinal seg.confidence)]
            else []) ∧
    userTranscriptHandler seg t1 t2 lo oo
      = [Delivery.mk Sink.intelligence
          (TranscriptSegment.mk Speaker.user seg.text t1 seg.isFinal seg.confidence)]
        ++ (if lo then
              [Delivery.mk Sink.launcher
                (TranscriptSegment.mk Speaker.user seg.text t2 seg.isFinal seg.confidence)]
            else [])
        ++ (if oo then
              [Delivery.mk Sink.overlay
                (TranscriptSegment.mk Speaker.user seg.text t2 seg.isFinal seg.confidence)]
            else []) ∧
    (∀ d ∈ systemTranscriptHandler seg t1 t2 lo oo,
      d.seg.text = seg.text ∧ d.seg.isFinal = seg.isFinal ∧
      d.seg.confidence = seg.confidence ∧
      d.seg.timestampMs = (if d.sink = Sink.intelligence then t1 else t2)) ∧
    (lo = false → ∀ d ∈ systemTranscriptHandler seg t1 t2 lo oo, d.sink ≠ Sink.launcher) ∧
    (oo = false → ∀ d ∈ systemTranscriptHandler seg t1 t2 lo oo, d.sink ≠ Sink.overlay) := by
  refine ⟨rfl, rfl, ?_, ?_, ?_⟩
  · intro d hd
    unfold systemTranscriptHandler at hd
    rcases List.mem_append.1 hd with h | h
    · rcases List.mem_append.1 h with h | h
      · simp at h
        simp [h]
      · by_cases hl : lo <;> simp [hl] at h
        simp [h]
    · by_cases ho : oo <;> simp [ho] at h
      simp [h]
  · intro hlo d hd
    unfold systemTranscriptHandler at hd
    rcases List.mem_append.1 hd with h | h
    · rcases List.mem_append.1 h with h | h
      · simp at h
        simp [h]
      · simp [hlo] at h
    · by_cases ho : oo <;> simp [ho] at h
      simp [h]
  · intro hoo d hd
    unfold systemTranscriptHandler at hd
    rcases List.mem_append.1 hd with h | h
    · rcases List.mem_append.1 h with h | h
      · simp at h
        simp [h]
      · by_cases hl : lo <;> simp [hl] at h
        simp [h]
    · simp [hoo] at h

theorem C7_witness :
    (systemTranscriptHandler (RawSegment.mk "ok" false 0) 3 4 false false
        = [Delivery.mk Sink.intelligence
            (TranscriptSegment.mk Speaker.interviewer "ok" 3 false 0)]) ∧
    (userTranscriptHandler (RawSegment.mk "ok" false 0) 3 4 false false
        = [Delivery.mk Sink.intelligence
            (TranscriptSegment.mk Speaker.user "ok" 3 false 0)]) := by
  have h := C7_amended (RawSegment.mk "ok" false 0) 3 4 false false
  exact ⟨by rw [h.1]; rfl, by rw [h.2.1]; rfl⟩

/-- A `subData` event is consistent when, if an STT handle was present at the
moment the `data` subscription was attached, its configured rate equalled the
new source's reported rate. -/
def subDataConsistent (ev : Ev) : Prop :=
  match ev with
  | Ev.subData _ b cfg sr => b = true → cfg = some sr
  | _ => True

theorem sysAttempt_ok (e : SysEnv) (stt0 : Option STT) (dev : Option String)
    (cap : SysCap) (stt1 : Option STT) (evs : List Ev)
    (h : sysAttempt e stt0 dev = Except.ok (cap, stt1, evs)) :
    stt1 = stt0.map (fun t => sttSetRate t (sysGetSampleRate cap)) ∧
    evs = [Ev.ctorOk Role.system (normDev dev) (sysGetSampleRate cap)]
      ++ (if stt0.isSome then [Ev.setRate Role.system (sysGetSampleRate cap)] else [])
      ++ [Ev.subData Role.system stt1.isSome (stt1.bind STT.rate) (sysGetSampleRate cap),
          Ev.subErr Role.system] := by
  unfold sysAttempt at h
  cases hc : e.ctor (normDev dev) with
  | ok c =>
    rw [hc] at h
    simp only [Except.bind, bind, pure, Except.pure, Except.ok.injEq, Prod.mk.injEq] at h
    obtain ⟨h1, h2, h3⟩ := h
    subst h1
    subst h2
    subst h3
    exact ⟨rfl, rfl⟩
  | error u =>
    rw [hc] at h
    simp [Except.bind, bind] at h

theorem micAttempt_ok (e : MicEnv) (stt0 : Option STT) (dev : Option String)
    (ms : MicState) (stt1 : Option STT) (evs : List Ev)
    (h : micAttempt e stt0 dev = Except.ok (ms, stt1, evs)) :
    micNew e dev = Except.ok ms ∧
    stt1 = stt0.map (fun t => sttSetRate t (micGetSampleRate ms)) ∧
    evs = [Ev.ctorOk Role.mic (normDev dev) (micGetSampleRate ms)]
      ++ (if stt0.isSome then [Ev.setRate Role.mic (micGetSampleRate ms)] else [])
      ++ [Ev.subData Role.mic stt1.isSome (stt1.bind STT.rate) (micGetSampleRate ms),
          Ev.subErr Role.mic] := by
  unfold micAttempt at h
  cases hc : micNew e dev with
  | ok m =>
    rw [hc] at h
    simp only [Except.bind, bind, pure, Except.pure, Except.ok.injEq, Prod.mk.injEq] at h
    obtain ⟨h1, h2, h3⟩ := h
    subst h1
    subst h2
    subst h3
    exact ⟨rfl, rfl, rfl⟩
  | error u =>
    rw [hc] at h
    simp [Except.bind, bind] at h

theorem micAttempt_error (e : MicEnv) (stt0 : Option STT) (dev : Option String)
    (h : micNew e dev = Except.error ()) : micAttempt e stt0 dev = Except.error () := by
  unfold micAttempt
  rw [h]
  rfl

theorem sysStop_mem (c : SysCap) :
    ∀ e ∈ (sysStop c).2, e = Ev.sysNativeStop ∨ e = Ev.logErr Role.system := by
  intro e he
  unfold sysStop at he
  by_cases h1 : c.capturing <;> by_cases h2 : c.stopThrows <;> simp [h1, h2] at he <;> tauto

theorem micStop_mem (s : MicState) :
    ∀ e ∈ (micStop s).2,
      e = Ev.micNativeStop ∨ e = Ev.logErr Role.mic ∨ e = Ev.micStopped := by
  intro e he
  unfold micStop at he
  by_cases h1 : s.isRecording
  · cases hm : s.monitor with
    | none => simp [h1, hm] at he; tauto
    | some m =>
      by_cases h2 : m.stopThrows <;> simp [h1, hm, h2] at he <;> tauto
  · simp [h1] at he

theorem sttDoStop_mem (r : Role) (t : STT) :
    ∀ e ∈ (sttDoStop r t).2, e = Ev.sttStopped r := by
  intro e he
  unfold sttDoStop at he
  by_cases h : t.listening <;> simp [h] at he
  exact he

theorem sysReconfigure_subData (e : SysEnv) (outId : Option String) (cap0 : Option SysCap)
    (stt0 : Option STT) :
    ∀ ev ∈ (sysReconfigure e outId cap0 stt0).2.2, subDataConsistent ev := by
  intro ev hev
  have hstop : ∀ x ∈ (match cap0 with | some c => (sysStop c).2 | none => ([] : List Ev)),
      subDataConsistent x := by
    intro x hx
    cases cap0 with
    | none => simp at hx
    | some c =>
      rcases sysStop_mem c x hx with h | h <;> simp [h, subDataConsistent]
  cases h1 : sysAttempt e stt0 outId with
  | ok val =>
    obtain ⟨cap, stt1, evs⟩ := val
    obtain ⟨hstt1, hevs⟩ := sysAttempt_ok e stt0 outId cap stt1 evs h1
    simp only [sysReconfigure, h1] at hev
    rcases List.mem_append.1 hev with h | h
    · exact hstop _ h
    · rw [hevs] at h
      rcases List.mem_append.1 h with h | h
      · rcases List.mem_append.1 h with h | h
        · simp at h
          simp [h, subDataConsistent]
        · cases stt0 <;> simp at h <;> simp [h, subDataConsistent]
      · simp at h
        rcases h with h | h
        · subst hstt1
          rw [h]
          cases stt0 <;> simp [subDataConsistent, sttSetRate]
        · simp [h, subDataConsistent]
  | error u =>
    cases h2 : sysAttempt e stt0 none with
    | ok val =>
      obtain ⟨cap, stt1, evs⟩ := val
      obtain ⟨hstt1, hevs⟩ := sysAttempt_ok e stt0 none cap stt1 evs h2
      simp only [sysReconfigure, h1, h2] at hev
      rcases List.mem_append.1 hev with h | h
      · rcases List.mem_append.1 h with h | h
        · exact hstop _ h
        · simp at h
          rcases h with h | h <;> simp [h, subDataConsistent]
      · rw [hevs] at h
        rcases List.mem_append.1 h with h | h
        · rcases List.mem_append.1 h with h | h
          · simp at h
            simp [h, subDataConsistent]
          · cases stt0 <;> simp at h <;> simp [h, subDataConsistent]
        · simp at h
          rcases h with h | h
          · subst hstt1
            rw [h]
            cases stt0 <;> simp [subDataConsistent, sttSetRate]
          · simp [h, subDataConsistent]
    | error u2 =>
      simp only [sysReconfigure, h1, h2] at hev
      rcases List.mem_append.1 hev with h | h
      · exact hstop _ h
      · simp at h
        rcases h with h | h | h | h <;> simp [h, subDataConsistent]

theorem micReconfigure_subData (e : MicEnv) (inId : Option String) (cap0 : Option MicState)
    (stt0 : Option STT) :
    ∀ ev ∈ (micReconfigure e inId cap0 stt0).2.2, subDataConsistent ev := by
  intro ev hev
  have hstop : ∀ x ∈ (match cap0 with | some c => (micStop c).2 | none => ([] : List Ev)),
      subDataConsistent x := by
    intro x hx
    cases cap0 with
    | none => simp at hx
    | some c =>
      rcases micStop_mem c x hx with h | h | h <;> simp [h, subDataConsistent]
  cases h1 : micAttempt e stt0 inId with
  | ok val =>
    obtain ⟨ms, stt1, evs⟩ := val
    obtain ⟨hnew, hstt1, hevs⟩ := micAttempt_ok e stt0 inId ms stt1 evs h1
    simp only [micReconfigure, h1] at hev
    rcases List.mem_append.1 hev with h | h
    · exact hstop _ h
    · rw [hevs] at h
      rcases List.mem_append.1 h with h | h
      · rcases List.mem_append.1 h with h | h
        · simp at h
          simp [h, subDataConsistent]
        · cases stt0 <;> simp at h <;> simp [h, subDataConsistent]
      · simp at h
        rcases h with h | h
        · subst hstt1
          rw [h]
          cases stt0 <;> simp [subDataConsistent, sttSetRate]
        · simp [h, subDataConsistent]
  | error u =>
    cases h2 : micAttempt e stt0 none with
    | ok val =>
      obtain ⟨ms, stt1, evs⟩ := val
      obtain ⟨hnew, hstt1, hevs⟩ := micAttempt_ok e stt0 none ms stt1 evs h2
      simp only [micReconfigure, h1, h2] at hev
      rcases List.mem_append.1 hev with h | h
      · rcases List.mem_append.1 h with h | h
        · exact hstop _ h
        · simp at h
          rcases h with h | h <;> simp [h, subDataConsistent]
      · rw [hevs] at h
        rcases List.mem_append.1 h with h | h
        · rcases List.mem_append.1 h with h | h
          · simp at h
            simp [h, subDataConsistent]
          · cases stt0 <;> simp at h <;> simp [h, subDataConsistent]
        · simp at h
          rcases h with h | h
          · subst hstt1
            rw [h]
            cases stt0 <;> simp [subDataConsistent, sttSetRate]
          · simp [h, subDataConsistent]
    | error u2 =>
      simp only [micReconfigure, h1, h2] at hev
      rcases List.mem_append.1 hev with h | h
      · exact hstop _ h
      · simp at h
        rcases h with h | h | h | h <;> simp [h, subDataConsistent]

/-- C2: during device reconfiguration, whenever a `data` subscription is
attached onto a freshly constructed capture source and the paired transcription
stream exists, the stream's configured sample rate at that moment equals the
rate the new source reports — so no chunk of the new source is ever forwarded
while the configured rate differs. -/
theorem C2_rate_before_subscribe (eS : SysEnv) (eM : MicEnv) (i o : Option String)
    (st : AudioState) (p : AudioState × List Ev)
    (hok : reconfigureAudio eS eM i o st = Except.ok p) :
    ∀ ev ∈ p.2, subDataConsistent ev := by
  intro ev hev
  have hp : (AudioState.mk (sysReconfigure eS o st.systemAudioCapture st.googleSTT).1
      (micReconfigure eM i st.microphoneCapture st.googleSTT_User).1
      (sysReconfigure eS o st.systemAudioCapture st.googleSTT).2.1
      (micReconfigure eM i st.microphoneCapture st.googleSTT_User).2.1,
      (sysReconfigure eS o st.systemAudioCapture st.googleSTT).2.2
        ++ (micReconfigure eM i st.microphoneCapture st.googleSTT_User).2.2) = p := by
    have := hok
    unfold reconfigureAudio at this
    exact Except.ok.inj this
  rw [← hp] at hev
  rcases List.mem_append.1 hev with h | h
  · exact sysReconfigure_subData eS o st.systemAudioCapture st.googleSTT ev h
  · exact micReconfigure_subData eM i st.microphoneCapture st.googleSTT_User ev h

theorem C2_witness :
    subDataConsistent (Ev.subData Role.system true (some 48000) 48000) :=
  C2_rate_before_subscribe
    (SysEnv.mk (fun _ => Except.ok (SysCap.mk 48000 false false false)))
    (MicEnv.mk true (fun _ => Except.ok (NativeMic.mk 44100 false false)))
    none none
    (AudioState.mk none none (some (STT.mk none false)) (some (STT.mk none false)))
    (AudioState.mk (some (SysCap.mk 48000 false false false))
        (some (MicState.mk (some (NativeMic.mk 44100 false false)) false))
        (some (STT.mk (some 48000) false)) (some (STT.mk (some 44100) false)),
      [Ev.ctorOk Role.system none 48000, Ev.setRate Role.system 48000,
        Ev.subData Role.system true (some 48000) 48000, Ev.subErr Role.system,
        Ev.ctorOk Role.mic none 44100, Ev.setRate Role.mic 44100,
        Ev.subData Role.mic true (some 44100) 44100, Ev.subErr Role.mic])
    rfl
    (Ev.subData Role.system true (some 48000) 48000)
    (by decide)

theorem micAttempt_eq_ok (e : MicEnv) (stt0 : Option STT) (dev : Option String)
    (ms : MicState) (h : micNew e dev = Except.ok ms) :
    micAttempt e stt0 dev
      = Except.ok (ms, stt0.map (fun t => sttSetRate t (micGetSampleRate ms)),
        [Ev.ctorOk Role.mic (normDev dev) (micGetSampleRate ms)]
        ++ (if stt0.isSome then [Ev.setRate Role.mic (micGetSampleRate ms)] else [])
        ++ [Ev.subData Role.mic (stt0.map (fun t => sttSetRate t (micGetSampleRate ms))).isSome
              ((stt0.map (fun t => sttSetRate t (micGetSampleRate ms))).bind STT.rate)
              (micGetSampleRate ms), Ev.subErr Role.mic]) := by
  unfold micAttempt
  rw [h]
  rfl

theorem sysAttempt_error (e : SysEnv) (stt0 : Option STT) (dev : Option String)
    (h : e.ctor (normDev dev) = Except.error ()) : sysAttempt e stt0 dev = Except.error () := by
  unfold sysAttempt
  rw [h]
  rfl

theorem sysAttempt_eq_ok (e : SysEnv) (stt0 : Option STT) (dev : Option String)
    (cap : SysCap) (h : e.ctor (normDev dev) = Except.ok cap) :
    sysAttempt e stt0 dev
      = Except.ok (cap, stt0.map (fun t => sttSetRate t (sysGetSampleRate cap)),
        [Ev.ctorOk Role.system (normDev dev) (sysGetSampleRate cap)]
        ++ (if stt0.isSome then [Ev.setRate Role.system (sysGetSampleRate cap)] else [])
        ++ [Ev.subData Role.system (stt0.map (fun t => sttSetRate t (sysGetSampleRate cap))).isSome
              ((stt0.map (fun t => sttSetRate t (sysGetSampleRate cap))).bind STT.rate)
              (sysGetSampleRate cap), Ev.subErr Role.system]) := by
  unfold sysAttempt
  rw [h]
  rfl

/-- C3: for each role, if constructing the capture source with the requested
deviceId throws, construction is retried with no deviceId; if the fallback also
throws, that role's capture field ends null with an error logged, while on
fallback success it holds the fallback instance; and each role's
reconfiguration outcome is independent of the other role's environment and
device, so failure in one role never affects the other. -/
theorem C3_fallback_isolation (eS : SysEnv) (eM : MicEnv) (i o : Option String)
    (st : AudioState) (p : AudioState × List Ev)
    (hok : reconfigureAudio eS eM i o st = Except.ok p) :
    (micNew eM i = Except.error () →
      Ev.ctorFail Role.mic (normDev i) ∈ p.2 ∧
      (micNew eM none = Except.error () →
        p.1.microphoneCapture = none ∧ Ev.ctorFail Role.mic none ∈ p.2 ∧
          Ev.logErr Role.mic ∈ p.2) ∧
      (∀ ms, micNew eM none = Except.ok ms → p.1.microphoneCapture = some ms)) ∧
    (eS.ctor (normDev o) = Except.error () →
      Ev.ctorFail Role.system (normDev o) ∈ p.2 ∧
      (eS.ctor none = Except.error () →
        p.1.systemAudioCapture = none ∧ Ev.ctorFail Role.system none ∈ p.2 ∧
          Ev.logErr Role.system ∈ p.2) ∧
      (∀ cap, eS.ctor none = Except.ok cap → p.1.systemAudioCapture = some cap)) ∧
    (∀ eM' i' p', reconfigureAudio eS eM' i' o st = Except.ok p' →
      p'.1.systemAudioCapture = p.1.systemAudioCapture ∧
        p'.1.googleSTT = p.1.googleSTT) ∧
    (∀ eS' o' p', reconfigureAudio eS' eM i o' st = Except.ok p' →
      p'.1.microphoneCapture = p.1.microphoneCapture ∧
        p'.1.googleSTT_User = p.1.googleSTT_User) := by
  unfold reconfigureAudio at hok
  have hp := (Except.ok.inj hok).symm
  subst hp
  refine ⟨?_, ?_, ?_, ?_⟩
  · intro hfail
    have hA : micAttempt eM st.googleSTT_User i = Except.error () :=
      micAttempt_error eM st.googleSTT_User i hfail
    refine ⟨?_, ?_, ?_⟩
    · cases hB : micAttempt eM st.googleSTT_User none with
      | ok val =>
        obtain ⟨ms, stt1, evs⟩ := val
        simp only [micReconfigure, hA, hB]
        simp
      | error u =>
        simp only [micReconfigure, hA, hB]
        simp
    · intro hB0
      have hB : micAttempt eM st.googleSTT_User none = Except.error () :=
        micAttempt_error eM st.googleSTT_User none hB0
      simp only [micReconfigure, hA, hB]
      simp
    · intro ms hB0
      have hB := micAttempt_eq_ok eM st.googleSTT_User none ms hB0
      simp only [micReconfigure, hA, hB]
  · intro hfail
    have hA : sysAttempt eS st.googleSTT o = Except.error () :=
      sysAttempt_error eS st.googleSTT o hfail
    refine ⟨?_, ?_, ?_⟩
    · cases hB : sysAttempt eS st.googleSTT none with
      | ok val =>
        obtain ⟨cap, stt1, evs⟩ := val
        simp only [sysReconfigure, hA, hB]
        simp
      | error u =>
        simp only [sysReconfigure, hA, hB]
        simp
    · intro hB0
      have hB : sysAttempt eS st.googleSTT none = Except.error () :=
        sysAttempt_error eS st.googleSTT none hB0
      simp only [sysReconfigure, hA, hB]
      simp
    · intro cap hB0
      have hB := sysAttempt_eq_ok eS st.googleSTT none cap hB0
      simp only [sysReconfigure, hA, hB]
  · intro eM' i' p' hok'
    unfold reconfigureAudio at hok'
    have hp' := (Except.ok.inj hok').symm
    subst hp'
    exact ⟨rfl, rfl⟩
  · intro eS' o' p' hok'
    unfold reconfigureAudio at hok'
    have hp' := (Except.ok.inj hok').symm
    subst hp'
    exact ⟨rfl, rfl⟩

theorem C3_witness :
    Ev.ctorFail Role.system (some "s") ∈
      [Ev.ctorFail Role.system (some "s"), Ev.logWarn Role.system,
        Ev.ctorFail Role.system none, Ev.logErr Role.system,
        Ev.ctorFail Role.mic (some "m"), Ev.logWarn Role.mic,
        Ev.ctorFail Role.mic none, Ev.logErr Role.mic] ∧
    Ev.ctorFail Role.mic (some "m") ∈
      [Ev.ctorFail Role.system (some "s"), Ev.logWarn Role.system,
        Ev.ctorFail Role.system none, Ev.logErr Role.system,
        Ev.ctorFail Role.mic (some "m"), Ev.logWarn Role.mic,
        Ev.ctorFail Role.mic none, Ev.logErr Role.mic] :=
  have h := C3_fallback_isolation
    (SysEnv.mk (fun _ => Except.error ()))
    (MicEnv.mk true (fun _ => Except.error ()))
    (some "m") (some "s")
    (AudioState.mk none none (some (STT.mk none false)) (some (STT.mk none false)))
    (AudioState.mk none none (some (STT.mk none false)) (some (STT.mk none false)),
      [Ev.ctorFail Role.system (some "s"), Ev.logWarn Role.system,
        Ev.ctorFail Role.system none, Ev.logErr Role.system,
        Ev.ctorFail Role.mic (some "m"), Ev.logWarn Role.mic,
        Ev.ctorFail Role.mic none, Ev.logErr Role.mic])
    rfl
  ⟨(h.2.1 rfl).1, (h.1 rfl).1⟩

/-- A pipeline state in which nothing is active: every present component is
idle (never started, or already stopped). -/
def inactiveAudio (st : AudioState) : Prop :=
  (∀ c, st.systemAudioCapture = some c → c.capturing = false) ∧
  (∀ m, st.microphoneCapture = some m → m.isRecording = false) ∧
  (∀ t, st.googleSTT = some t → t.listening = false) ∧
  (∀ t, st.googleSTT_User = some t → t.listening = false)

theorem sysStop_inactive (c : SysCap) (h : c.capturing = false) : sysStop c = (c, []) := by
  unfold sysStop
  simp [h]

theorem micStop_inactive (s : MicState) (h : s.isRecording = false) : micStop s = (s, []) := by
  unfold micStop
  simp [h]

theorem sttDoStop_inactive (r : Role) (t : STT) (h : t.listening = false) :
    sttDoStop r t = (t, []) := by
  unfold sttDoStop
  simp [h]

theorem stopPairs_inactive (st : AudioState) (h : inactiveAudio st) : stopPairs st = (st, []) := by
  obtain ⟨h1, h2, h3, h4⟩ := h
  rcases st with ⟨sc, mc, ts, tu⟩
  simp only at h1 h2 h3 h4
  have e1 : optSysStop sc = (sc, []) := by
    cases sc with
    | none => rfl
    | some c => simp [optSysStop, sysStop_inactive c (h1 c rfl)]
  have e2 : optMicStop mc = (mc, []) := by
    cases mc with
    | none => rfl
    | some m => simp [optMicStop, micStop_inactive m (h2 m rfl)]
  have e3 : optSttStop Role.system ts = (ts, []) := by
    cases ts with
    | none => rfl
    | some t => simp [optSttStop, sttDoStop_inactive Role.system t (h3 t rfl)]
  have e4 : optSttStop Role.mic tu = (tu, []) := by
    cases tu with
    | none => rfl
    | some t => simp [optSttStop, sttDoStop_inactive Role.mic t (h4 t rfl)]
  simp [stopPairs, e1, e2, e3, e4]

theorem sysStop_not_capturing (c : SysCap) : (sysStop c).1.capturing = false := by
  unfold sysStop
  by_cases h : c.capturing <;> simp [h]

/-- C4: stopping an already-stopped capture handle (microphone or system) is a
no-op — identical state, no events, no second native teardown call — and
`endMeeting` called on a fully inactive pipeline, with components absent or
never started, returns normally with no stop side effect at all. -/
theorem C4_stop_idempotent :
    (∀ s, micStop (micStop s).1 = ((micStop s).1, [])) ∧
    (∀ c, sysStop (sysStop c).1 = ((sysStop c).1, [])) ∧
    (∀ (rp : Bool) (pr : Except Unit ℕ) (db : Db) (st : AudioState), inactiveAudio st →
      endMeeting rp pr db st
        = Except.ok (st, Ev.stopMeetingCall :: processCompletedMeetingForRAG rp pr db)) := by
  refine ⟨?_, ?_, ?_⟩
  · intro s
    have h := micStop_not_recording s
    exact micStop_inactive (micStop s).1 h
  · intro c
    have h := sysStop_not_capturing c
    exact sysStop_inactive (sysStop c).1 h
  · intro rp pr db st h
    unfold endMeeting
    rw [stopPairs_inactive st h]
    rfl

theorem C4_witness :
    micStop (micStop (MicState.mk (some (NativeMic.mk 16000 false false)) true)).1
        = ((micStop (MicState.mk (some (NativeMic.mk 16000 false false)) true)).1, []) ∧
    endMeeting false (Except.ok 0) (Db.mk [] (fun _ => none)) (AudioState.mk none none none none)
        = Except.ok (AudioState.mk none none none none, [Ev.stopMeetingCall]) := by
  constructor
  · exact C4_stop_idempotent.1 (MicState.mk (some (NativeMic.mk 16000 false false)) true)
  · have h := C4_stop_idempotent.2.2 false (Except.ok 0) (Db.mk [] (fun _ => none))
      (AudioState.mk none none none none)
      (by refine ⟨?_, ?_, ?_, ?_⟩ <;> intro x hx <;> cases hx)
    rw [h]
    rfl

/-- C8: for every behaviour of the native capture layer — including throwing
constructors, a throwing native start, a throwing native stop and a throwing
RAG-processing collaborator — `reconfigureAudio`, `startMeeting` and
`endMeeting` resolve normally (no exception reaches their caller), and when
every constructor throws, reconfiguration ends with both capture fields absent
and an error logged for each role. -/
theorem C8_no_exception_propagation (eS : SysEnv) (eM : MicEnv) (i o : Option String)
    (st : AudioState) (md : Option MeetingMeta) (rp : Bool) (pr : Except Unit ℕ) (db : Db) :
    (∃ p, reconfigureAudio eS eM i o st = Except.ok p) ∧
    (∃ p, startMeeting eS eM md st = Except.ok p) ∧
    (∃ p, endMeeting rp pr db st = Except.ok p) ∧
    ((∀ d, eS.ctor d = Except.error ()) → eM.rustAvailable = true →
      (∀ d, eM.nativeCtor d = Except.error ()) →
      ∀ p, reconfigureAudio eS eM i o st = Except.ok p →
        p.1.systemAudioCapture = none ∧ p.1.microphoneCapture = none ∧
        Ev.logErr Role.system ∈ p.2 ∧ Ev.logErr Role.mic ∈ p.2) := by
  refine ⟨⟨_, rfl⟩, ?_, ⟨_, rfl⟩, ?_⟩
  · cases md with
    | none => exact ⟨_, rfl⟩
    | some m =>
      obtain ⟨au⟩ := m
      cases au with
      | none => exact ⟨_, rfl⟩
      | some pr2 =>
        obtain ⟨a, b⟩ := pr2
        exact ⟨_, rfl⟩
  · intro hS hR hM p hok
    have hmicNew : ∀ d, micNew eM d = Except.error () := by
      intro d
      unfold micNew
      simp [hR, hM, Except.map]
    have hsysA : ∀ stt0 dev, sysAttempt eS stt0 dev = Except.error () := by
      intro stt0 dev
      unfold sysAttempt
      rw [hS (normDev dev)]
      rfl
    have hmicA : ∀ stt0 dev, micAttempt eM stt0 dev = Except.error () := fun stt0 dev =>
      micAttempt_error eM stt0 dev (hmicNew dev)
    unfold reconfigureAudio at hok
    have hp := (Except.ok.inj hok).symm
    subst hp
    simp only [sysReconfigure, micReconfigure, hsysA, hmicA]
    simp

theorem C8_witness :
    (none : Option SysCap) = none ∧ (none : Option MicState) = none ∧
    Ev.logErr Role.system ∈
      [Ev.ctorFail Role.system none, Ev.logWarn Role.system,
        Ev.ctorFail Role.system none, Ev.logErr Role.system,
        Ev.ctorFail Role.mic none, Ev.logWarn Role.mic,
        Ev.ctorFail Role.mic none, Ev.logErr Role.mic] ∧
    Ev.logErr Role.mic ∈
      [Ev.ctorFail Role.system none, Ev.logWarn Role.system,
        Ev.ctorFail Role.system none, Ev.logErr Role.system,
        Ev.ctorFail Role.mic none, Ev.logWarn Role.mic,
        Ev.ctorFail Role.mic none, Ev.logErr Role.mic] :=
  (C8_no_exception_propagation
    (SysEnv.mk (fun _ => Except.error ()))
    (MicEnv.mk true (fun _ => Except.error ()))
    none none
    (AudioState.mk none none (some (STT.mk none false)) (some (STT.mk none false)))
    none false (Except.ok 0) (Db.mk [] (fun _ => none))).2.2.2
    (fun _ => rfl) rfl (fun _ => rfl)
    (AudioState.mk none none (some (STT.mk none false)) (some (STT.mk none false)),
      [Ev.ctorFail Role.system none, Ev.logWarn Role.system,
        Ev.ctorFail Role.system none, Ev.logErr Role.system,
        Ev.ctorFail Role.mic none, Ev.logWarn Role.mic,
        Ev.ctorFail Role.mic none, Ev.logErr Role.mic])
    rfl

/-- Recognizer for the post-session RAG-processing invocation event. -/
def isRagProcess (e : Ev) : Bool :=
  match e with
  | Ev.ragProcess _ _ _ => true
  | _ => false

/-- How many times `ragManager.processMeeting` is invoked in a trace. -/
def ragCount (tr : List Ev) : ℕ :=
  tr.countP isRagProcess

theorem processRAG_props (rp : Bool) (pr : Except Unit ℕ) (db : Db) :
    ragCount (processCompletedMeetingForRAG rp pr db) ≤ 1 ∧
    (∀ mid segs su, Ev.ragProcess mid segs su ∈ processCompletedMeetingForRAG rp pr db →
      ∃ l, recentTranscript db = some l ∧ l ≠ [] ∧
        segs = l.map (fun t => TEntry.mk t.speaker t.text t.timestamp)) ∧
    ((recentTranscript db = none ∨ recentTranscript db = some []) →
      processCompletedMeetingForRAG rp pr db = []) ∧
    (rp = true → ∀ l, recentTranscript db = some l → l ≠ [] →
      ragCount (processCompletedMeetingForRAG rp pr db) = 1) := by
  by_cases hrp : rp = false
  · have hpr : processCompletedMeetingForRAG rp pr db = [] := by
      unfold processCompletedMeetingForRAG
      simp [hrp]
    rw [hpr]
    refine ⟨by simp [ragCount], by simp, fun _ => rfl, ?_⟩
    intro ht
    simp [ht] at hrp
  · have hrp' : rp = true := by
      cases rp
      · exact absurd rfl hrp
      · rfl
    rcases hh : db.recent.head? with _ | m0
    · have hrt : recentTranscript db = none := by
        simp [recentTranscript, hh]
      have hpr : processCompletedMeetingForRAG rp pr db = [] := by
        unfold processCompletedMeetingForRAG
        simp [hrp', hh]
      rw [hpr]
      refine ⟨by simp [ragCount], by simp, fun _ => rfl, ?_⟩
      intro _ l hl
      rw [hrt] at hl
      exact absurd hl (by simp)
    · rcases hd : db.details m0.id with _ | meeting
      · have hrt : recentTranscript db = none := by
          simp [recentTranscript, hh, hd]
        have hpr : processCompletedMeetingForRAG rp pr db = [] := by
          unfold processCompletedMeetingForRAG
          simp [hrp', hh, hd]
        rw [hpr]
        refine ⟨by simp [ragCount], by simp, fun _ => rfl, ?_⟩
        intro _ l hl
        rw [hrt] at hl
        exact absurd hl (by simp)
      · rcases ht : meeting.transcript with _ | trn
        · have hrt : recentTranscript db = none := by
            simp [recentTranscript, hh, hd, ht]
          have hpr : processCompletedMeetingForRAG rp pr db = [] := by
            unfold processCompletedMeetingForRAG
            simp [hrp', hh, hd, ht]
          rw [hpr]
          refine ⟨by simp [ragCount], by simp, fun _ => rfl, ?_⟩
          intro _ l hl
          rw [hrt] at hl
          exact absurd hl (by simp)
        · have hrt : recentTranscript db = some trn := by
            simp [recentTranscript, hh, hd, ht]
          by_cases hlen : trn.length = 0
          · have htrn : trn = [] := List.length_eq_zero.1 hlen
            have hpr : processCompletedMeetingForRAG rp pr db = [] := by
              unfold processCompletedMeetingForRAG
              simp [hrp', hh, hd, ht, hlen]
            rw [hpr]
            refine ⟨by simp [ragCount], by simp, fun _ => rfl, ?_⟩
            intro _ l hl hlne
            rw [hrt] at hl
            have hle : trn = l := Option.some.inj hl
            rw [← hle, htrn] at hlne
            exact absurd rfl hlne
          · have htrnne : trn ≠ [] := by
              intro hcon
              rw [hcon] at hlen
              exact hlen rfl
            have hkey : ∀ last, processCompletedMeetingForRAG rp pr db
                  = [Ev.ragProcess meeting.id
                      (trn.map (fun t => TEntry.mk t.speaker t.text t.timestamp))
                      (meeting.detailedSummary.map (fun ds =>
                        String.intercalate ". "
                          (ds.keyPoints ++ ds.actionItems.map (fun a => "Action: " ++ a)))),
                    last] →
                ragCount (processCompletedMeetingForRAG rp pr db) = ragCount [last] + 1 ∧
                (∀ mid segs su,
                  Ev.ragProcess mid segs su ∈ processCompletedMeetingForRAG rp pr db →
                  Ev.ragProcess mid segs su
                      = Ev.ragProcess meeting.id
                          (trn.map (fun t => TEntry.mk t.speaker t.text t.timestamp))
                          (meeting.detailedSummary.map (fun ds =>
                            String.intercalate ". "
                              (ds.keyPoints ++ ds.actionItems.map (fun a => "Action: " ++ a)))) ∨
                    Ev.ragProcess mid segs su = last) := by
              intro last hlast
              rw [hlast]
              constructor
              · simp [ragCount, List.countP_cons, isRagProcess]
              · intro mid segs su hmem
                simpa using hmem
            have hsplit : (∃ n, pr = Except.ok n) ∨ pr = Except.error () := by
              cases pr with
              | ok n => exact Or.inl ⟨n, rfl⟩
              | error u =>
                cases u
                exact Or.inr rfl
            rcases hsplit with ⟨n, hproc⟩ | hproc
            ·
              have hpr : processCompletedMeetingForRAG rp pr db
                  = [Ev.ragProcess meeting.id
                      (trn.map (fun t => TEntry.mk t.speaker t.text t.timestamp))
                      (meeting.detailedSummary.map (fun ds =>
                        String.intercalate ". "
                          (ds.keyPoints ++ ds.actionItems.map (fun a => "Action: " ++ a)))),
                    Ev.ragOk n] := by
                unfold processCompletedMeetingForRAG
                simp [hrp', hh, hd, ht, hlen, hproc]
              obtain ⟨hcount, hmem⟩ := hkey (Ev.ragOk n) hpr
              have hcnt1 : ragCount (processCompletedMeetingForRAG rp pr db) = 1 := by
                rw [hcount]
                simp [ragCount, isRagProcess]
              refine ⟨by rw [hcnt1], ?_, ?_, fun _ _ _ _ => hcnt1⟩
              · intro mid segs su hm
                rcases hmem mid segs su hm with hcase | hcase
                · refine ⟨trn, hrt, htrnne, ?_⟩
                  injection hcase with h1 h2 h3
                · exact absurd hcase (by simp)
              · intro hcase
                rcases hcase with hc | hc <;> rw [hrt] at hc
                · exact absurd hc (by simp)
                · have := Option.some.inj hc
                  exact absurd this htrnne
            · have hpr : processCompletedMeetingForRAG rp pr db
                  = [Ev.ragProcess meeting.id
                      (trn.map (fun t => TEntry.mk t.speaker t.text t.timestamp))
                      (meeting.detailedSummary.map (fun ds =>
                        String.intercalate ". "
                          (ds.keyPoints ++ ds.actionItems.map (fun a => "Action: " ++ a)))),
                    Ev.ragLogErr] := by
                unfold processCompletedMeetingForRAG
                simp [hrp', hh, hd, ht, hlen, hproc]
              obtain ⟨hcount, hmem⟩ := hkey Ev.ragLogErr hpr
              have hcnt1 : ragCount (processCompletedMeetingForRAG rp pr db) = 1 := by
                rw [hcount]
                simp [ragCount, isRagProcess]
              refine ⟨by rw [hcnt1], ?_, ?_, fun _ _ _ _ => hcnt1⟩
              · intro mid segs su hm
                rcases hmem mid segs su hm with hcase | hcase
                · refine ⟨trn, hrt, htrnne, ?_⟩
                  injection hcase with h1 h2 h3
                · exact absurd hcase (by simp)
              · intro hcase
                rcases hcase with hc | hc <;> rw [hrt] at hc
                · exact absurd hc (by simp)
                · have := Option.some.inj hc
                  exact absurd this htrnne

theorem stopPairs_mem (st : AudioState) :
    ∀ e ∈ (stopPairs st).2,
      e = Ev.sysNativeStop ∨ e = Ev.logErr Role.system ∨ e = Ev.micNativeStop ∨
      e = Ev.logErr Role.mic ∨ e = Ev.micStopped ∨ e = Ev.sttStopped Role.system ∨
      e = Ev.sttStopped Role.mic := by
  intro e he
  have h1 : ∀ x ∈ (optSysStop st.systemAudioCapture).2,
      x = Ev.sysNativeStop ∨ x = Ev.logErr Role.system := by
    intro x hx
    cases hc : st.systemAudioCapture with
    | none => rw [hc] at hx; simp [optSysStop] at hx
    | some c =>
      rw [hc] at hx
      exact sysStop_mem c x (by simpa [optSysStop] using hx)
  have h2 : ∀ x ∈ (optMicStop st.microphoneCapture).2,
      x = Ev.micNativeStop ∨ x = Ev.logErr Role.mic ∨ x = Ev.micStopped := by
    intro x hx
    cases hc : st.microphoneCapture with
    | none => rw [hc] at hx; simp [optMicStop] at hx
    | some m =>
      rw [hc] at hx
      exact micStop_mem m x (by simpa [optMicStop] using hx)
  have h3 : ∀ x ∈ (optSttStop Role.system st.googleSTT).2,
      x = Ev.sttStopped Role.system := by
    intro x hx
    cases hc : st.googleSTT with
    | none => rw [hc] at hx; simp [optSttStop] at hx
    | some t =>
      rw [hc] at hx
      exact sttDoStop_mem Role.system t x (by simpa [optSttStop] using hx)
  have h4 : ∀ x ∈ (optSttStop Role.mic st.googleSTT_User).2,
      x = Ev.sttStopped Role.mic := by
    intro x hx
    cases hc : st.googleSTT_User with
    | none => rw [hc] at hx; simp [optSttStop] at hx
    | some t =>
      rw [hc] at hx
      exact sttDoStop_mem Role.mic t x (by simpa [optSttStop] using hx)
  simp only [stopPairs] at he
  rcases List.mem_append.1 he with h | h
  · rcases List.mem_append.1 h with h | h
    · rcases List.mem_append.1 h with h | h
      · rcases h1 e h with h | h <;> tauto
      · have := h3 e h
        tauto
    · rcases h2 e h with h | h | h <;> tauto
  · have := h4 e h
    tauto

/-- C9: `endMeeting` first runs the stop phase (which contains no finalisation
or RAG event), then session finalisation, then the post-session RAG processing,
which invokes `processMeeting` at most once per ended meeting, only when the
most recent stored transcript is non-empty (and exactly once when the RAG
manager is present and the transcript is non-empty); an empty or absent
transcript is skipped silently with an empty processing trace. -/
theorem C9_end_sequence (rp : Bool) (pr : Except Unit ℕ) (db : Db) (st : AudioState)
    (p : AudioState × List Ev) (hok : endMeeting rp pr db st = Except.ok p) :
    p.2 = (stopPairs st).2 ++ [Ev.stopMeetingCall]
        ++ processCompletedMeetingForRAG rp pr db ∧
    (∀ e ∈ (stopPairs st).2,
      (∀ mid segs su, e ≠ Ev.ragProcess mid segs su) ∧ e ≠ Ev.stopMeetingCall) ∧
    ragCount (processCompletedMeetingForRAG rp pr db) ≤ 1 ∧
    (∀ mid segs su, Ev.ragProcess mid segs su ∈ processCompletedMeetingForRAG rp pr db →
      ∃ l, recentTranscript db = some l ∧ l ≠ [] ∧
        segs = l.map (fun t => TEntry.mk t.speaker t.text t.timestamp)) ∧
    ((recentTranscript db = none ∨ recentTranscript db = some []) →
      processCompletedMeetingForRAG rp pr db = []) ∧
    (rp = true → ∀ l, recentTranscript db = some l → l ≠ [] →
      ragCount (processCompletedMeetingForRAG rp pr db) = 1) := by
  unfold endMeeting at hok
  have hp := (Except.ok.inj hok).symm
  subst hp
  obtain ⟨hc1, hc2, hc3, hc4⟩ := processRAG_props rp pr db
  refine ⟨rfl, ?_, hc1, hc2, hc3, hc4⟩
  intro e he
  rcases stopPairs_mem st e he with h | h | h | h | h | h | h <;> subst h <;>
    exact ⟨fun _ _ _ => by simp, by simp⟩

theorem C9_witness :
    ragCount (processCompletedMeetingForRAG true (Except.ok 3)
      (Db.mk [MeetingRec.mk 1 (some [TEntry.mk "user" "hello" 5]) none]
        (fun n => if n = 1 then
          some (MeetingRec.mk 1 (some [TEntry.mk "user" "hello" 5]) none) else none))) = 1 :=
  (C9_end_sequence true (Except.ok 3)
    (Db.mk [MeetingRec.mk 1 (some [TEntry.mk "user" "hello" 5]) none]
      (fun n => if n = 1 then
        some (MeetingRec.mk 1 (some [TEntry.mk "user" "hello" 5]) none) else none))
    (AudioState.mk none none none none)
    (AudioState.mk none none none none,
      [Ev.stopMeetingCall,
        Ev.ragProcess 1 [TEntry.mk "user" "hello" 5] none, Ev.ragOk 3])
    rfl).2.2.2.2.2 rfl [TEntry.mk "user" "hello" 5] rfl (by simp)

end Natively
